import Mathlib

/-!
Shallow embedding of the waybackurls tool (src/main.go).

The program queries three archive services for historical URLs of a
target domain, merges their results, deduplicates by URL and prints
them, optionally prefixed with an RFC3339 rendering of the record's
14-digit archive timestamp.  The HTTP layer is modelled as an explicit
outcome parameter (`Except GoErr _`): a `.error e` value stands for a
failed request or body read, and for bodies whose decoding the Go code
checks or ignores, the decoded shape (or decode failure) is passed in
explicitly.  Go panics (index out of range) are modelled by `Option`
results where `none` is a crash.
-/

/-- Record produced by every source adapter (src/main.go, `type wurl struct`):
a fetch timestamp (possibly empty) and a URL. -/
structure wurl where
  date : String
  url : String
deriving DecidableEq, Repr

/-- Go `error` values, abstracted to their message string. -/
abbrev GoErr := String

/-- Query URL built by `getWaybackURLs` (src/main.go:176-185): the literal
`fmt.Sprintf` interpolation, with the `*.` wildcard prefix dropped when
`noSubs` is set.  The domain is interpolated verbatim, not URL-encoded. -/
def getWaybackQueryURL (domain : String) (noSubs : Bool) : String :=
  let subsWildcard := if noSubs then "" else "*."
  "http://web.archive.org/cdx/search/cdx?url=" ++ subsWildcard ++ domain
    ++ "/*&output=json&collapse=urlkey"

/-- Query URL built by `getCommonCrawlURLs` (src/main.go:217-226), same
wildcard convention as the wayback query, verbatim interpolation. -/
def getCommonCrawlQueryURL (domain : String) (noSubs : Bool) : String :=
  let subsWildcard := if noSubs then "" else "*."
  "http://index.commoncrawl.org/CC-MAIN-2018-22-index?url=" ++ subsWildcard ++ domain
    ++ "/*&output=json"

/-- Loop of `getWaybackURLs` over the decoded rows after the header has been
skipped (src/main.go:203-211).  Each row is read at positions 1 and 2
(`urls[1]`, `urls[2]`); a row shorter than 3 fields makes Go panic with an
index-out-of-range error, modelled as `none`. -/
def waybackRowsGo : List (List String) → Option (List wurl)
  | [] => some []
  | urls :: rest =>
    if 2 < urls.length then
      (waybackRowsGo rest).map
        (fun out => { date := urls.getD 1 "", url := urls.getD 2 "" } :: out)
    else none

/-- Row processing of `getWaybackURLs` (src/main.go:200-211): the first row of
the decoded wrapper is skipped unconditionally (`skip` flag), the rest go
through `waybackRowsGo`. -/
def waybackRows : List (List String) → Option (List wurl)
  | [] => some []
  | _ :: rest => waybackRowsGo rest

/-- `getWaybackURLs` after the query URL has been built (src/main.go:183-214).
The argument is the outcome of the HTTP layer: `.error e` for a failed
request or body read; `.ok (.error e)` for a body that `json.Unmarshal`
rejects — the Go code assigns that error to `err` but never checks it, so the
wrapper stays empty and the function returns `(out, nil)`; `.ok (.ok rows)`
for a decoded `[][]string`.  The outer `Option` is `none` on panic. -/
def getWaybackURLsResult (outcome : Except GoErr (Except GoErr (List (List String)))) :
    Option (List wurl × Option GoErr) :=
  match outcome with
  | .error e => some ([], some e)
  | .ok (.error _) => some ([], none)
  | .ok (.ok wrapper) => (waybackRows wrapper).map (fun out => (out, none))

/-- `getCommonCrawlURLs` after the query URL has been built
(src/main.go:224-251).  The body is newline-delimited JSON, decoded line by
line; a line that fails to decode is skipped (`continue`), so the body is
modelled as a list of per-line decode results (`none` = undecodable line,
`some w` = the decoded timestamp/url pair). -/
def getCommonCrawlURLsResult (outcome : Except GoErr (List (Option wurl))) :
    List wurl × Option GoErr :=
  match outcome with
  | .error e => ([], some e)
  | .ok lines => (lines.filterMap id, none)

/-- `getVirusTotalURLs` (src/main.go:258-298).  `apiKey` is the value of
`os.Getenv "VT_API_KEY"` (the empty string when the variable is absent or
empty).  `net` maps a requested URL to the HTTP outcome: `.error e` for a
failed request, `.ok (.error e)` for a body rejected by `dec.Decode` — an
error the Go code assigns but never checks, leaving the wrapper empty —
and `.ok (.ok urls)` for the decoded `detected_urls` entries.  The second
component of the result is the trace of URLs actually requested, so that
"no network call" is visible in the model. -/
def getVirusTotalURLs (apiKey domain : String)
    (net : String → Except GoErr (Except GoErr (List String))) :
    (List wurl × Option GoErr) × List String :=
  if apiKey = "" then (([], none), [])
  else
    let fetchURL := "https://www.virustotal.com/vtapi/v2/domain/report?apikey="
      ++ apiKey ++ "&domain=" ++ domain
    match net fetchURL with
    | .error e => (([], some e), [fetchURL])
    | .ok (.error _) => (([], none), [fetchURL])
    | .ok (.ok urls) => ((urls.map (fun u => { date := "", url := u }), none), [fetchURL])

/-- Go's `strings.ToLower` restricted to ASCII input (domains): each
character lowercased. -/
def toLowerAscii (s : String) : String := String.mk (s.data.map Char.toLower)

/-- `isSubdomain` (src/main.go:301-310).  `parseHost` models
`url.Parse` followed by `Hostname()`: `none` when the URL fails to parse
(in which case the Go code returns `false`, i.e. err on the side of
including the record), otherwise the extracted host.  Hosts and the target
are compared lowercased. -/
def isSubdomain (parseHost : String → Option String) (rawUrl domain : String) : Bool :=
  match parseHost rawUrl with
  | none => false
  | some h => toLowerAscii h != toLowerAscii domain

/-- Record-forwarding loop of one adapter goroutine (src/main.go:131-136):
each fetched record is dropped when `noSubs` is set and `isSubdomain` holds,
and otherwise sent on the merged channel. -/
def emitRecords (parseHost : String → Option String) (noSubs : Bool) (domain : String)
    (rs : List wurl) : List wurl :=
  rs.filter (fun r => !(noSubs && isSubdomain parseHost r.url domain))

/-- Whole goroutine body after the fetch returns (src/main.go:126-137): on a
non-nil error the goroutine returns without emitting anything; otherwise the
records pass the subdomain filter. -/
def adapterEmit (parseHost : String → Option String) (noSubs : Bool) (domain : String)
    (result : List wurl × Option GoErr) : List wurl :=
  match result.2 with
  | some _ => []
  | none => emitRecords parseHost noSubs domain result.1

/-- Calendar date plus time of day, the part of a Go `time.Time` that
`time.Parse("20060102150405", _)` determines (always UTC). -/
structure GoTime where
  year : Nat
  month : Nat
  day : Nat
  hour : Nat
  minute : Nat
  second : Nat
deriving DecidableEq, Repr

/-- The zero `time.Time`: January 1, year 1, 00:00:00 UTC.  `time.Parse`
returns it alongside a non-nil error. -/
def zeroTime : GoTime := { year := 1, month := 1, day := 1, hour := 0, minute := 0, second := 0 }

/-- Reads a fixed-width run of decimal digits as a number, failing on any
non-digit, like Go's `getnum` on zero-padded layout fields. -/
def parseFixedNat (cs : List Char) : Option Nat :=
  cs.foldl (fun acc c =>
    acc.bind (fun n => if c.isDigit then some (n * 10 + (c.toNat - 48)) else none)) (some 0)

/-- Leap-year rule used by Go's `time` package. -/
def isLeapYear (y : Nat) : Bool :=
  y % 4 == 0 && (y % 100 != 0 || y % 400 == 0)

/-- Days in a month, as Go's `daysIn`. -/
def daysInMonth (m y : Nat) : Nat :=
  if m == 2 then (if isLeapYear y then 29 else 28)
  else if m == 4 || m == 6 || m == 9 || m == 11 then 30
  else 31

/-- Go's `time.Parse("20060102150405", s)` (src/main.go:154): exactly 14
digits split as year/month/day/hour/minute/second, with Go's range checks
(month 1-12, day 1-daysIn, hour below 24, minute and second below 60).
`none` models a non-nil parse error, in which case the returned time is the
zero time. -/
def parseArchiveTimestamp (s : String) : Option GoTime :=
  let cs := s.toList
  if cs.length = 14 then
    match parseFixedNat (cs.take 4), parseFixedNat ((cs.drop 4).take 2),
          parseFixedNat ((cs.drop 6).take 2), parseFixedNat ((cs.drop 8).take 2),
          parseFixedNat ((cs.drop 10).take 2), parseFixedNat ((cs.drop 12).take 2) with
    | some y, some mo, some d, some h, some mi, some sec =>
      if 1 ≤ mo ∧ mo ≤ 12 ∧ 1 ≤ d ∧ d ≤ daysInMonth mo y ∧ h ≤ 23 ∧ mi ≤ 59 ∧ sec ≤ 59 then
        some { year := y, month := mo, day := d, hour := h, minute := mi, second := sec }
      else none
    | _, _, _, _, _, _ => none
  else none

/-- Zero-pads a number to two digits. -/
def pad2 (n : Nat) : String := if n < 10 then "0" ++ toString n else toString n

/-- Zero-pads a number to four digits. -/
def pad4 (n : Nat) : String :=
  if n < 10 then "000" ++ toString n
  else if n < 100 then "00" ++ toString n
  else if n < 1000 then "0" ++ toString n
  else toString n

/-- Go's `t.Format(time.RFC3339)` for a UTC time (src/main.go:159):
`YYYY-MM-DDTHH:MM:SSZ`. -/
def formatRFC3339 (t : GoTime) : String :=
  pad4 t.year ++ "-" ++ pad2 t.month ++ "-" ++ pad2 t.day ++ "T"
    ++ pad2 t.hour ++ ":" ++ pad2 t.minute ++ ":" ++ pad2 t.second ++ "Z"

/-- Diagnostic written to stderr when a record's date fails to parse
(src/main.go:156). -/
def warnMsg (d u : String) : String :=
  "failed to parse date [" ++ d ++ "] for URL [" ++ u ++ "]"

/-- Rendering of one surviving record (src/main.go:152-163): in dated mode
the 14-digit timestamp is parsed; on success the line is the RFC3339 time
and the URL, on failure a warning goes to the diagnostic stream and the
line is still emitted, with the zero time.  In plain mode the line is the
bare URL.  Returns the output line and the diagnostics produced. -/
def emitRecord (dates : Bool) (w : wurl) : String × List String :=
  if dates then
    match parseArchiveTimestamp w.date with
    | some d => (formatRFC3339 d ++ " " ++ w.url, [])
    | none => (formatRFC3339 zeroTime ++ " " ++ w.url, [warnMsg w.date w.url])
  else (w.url, [])

/-- First-seen-wins selection performed by the `seen` map in the consumer
loop (src/main.go:145-150): a record whose URL is already in `seen` is
skipped, otherwise its URL is added and the record survives.  The `seen`
map is modelled as the list of its keys. -/
def dedupRecords : List wurl → List String → List wurl
  | [], _ => []
  | w :: rest, seen =>
    if w.url ∈ seen then dedupRecords rest seen
    else w :: dedupRecords rest (w.url :: seen)

/-- Consumer loop over one target's merged record stream
(src/main.go:145-164): dedup by URL interleaved with rendering.  Returns
the output lines and the diagnostics, in order. -/
def outputLoop (dates : Bool) : List wurl → List String → List String × List String
  | [], _ => ([], [])
  | w :: rest, seen =>
    if w.url ∈ seen then outputLoop dates rest seen
    else
      let e := emitRecord dates w
      let res := outputLoop dates rest (w.url :: seen)
      (e.1 :: res.1, e.2 ++ res.2)

/-- Per-target loop of `main` (src/main.go:114-165): each target's merged
stream is consumed with a freshly allocated `seen` map (`seen :=
make(map[string]bool)` inside the loop), and the outputs are concatenated
in target order. -/
def mainLoop (dates : Bool) : List (List wurl) → List String × List String
  | [] => ([], [])
  | stream :: rest =>
    let res := outputLoop dates stream []
    let res2 := mainLoop dates rest
    (res.1 ++ res2.1, res.2 ++ res2.2)

/-- Snapshot URL synthesized by `getVersions` for one kept row
(src/main.go:349). -/
def synthSnapshotURL (s : List String) : String :=
  "https://web.archive.org/web/" ++ s.getD 1 "" ++ "if_/" ++ s.getD 2 ""

/-- Loop of `getVersions` over the rows after the header (src/main.go:336-350):
each row is read at position 5 (the content digest) — a row shorter than 6
fields makes Go panic, modelled as `none` — rows whose digest was already
seen are skipped, and each kept row contributes its snapshot URL. -/
def versionsGo : List (List String) → List String → Option (List String)
  | [], _ => some []
  | s :: rest, seen =>
    if 5 < s.length then
      if s.getD 5 "" ∈ seen then versionsGo rest seen
      else (versionsGo rest (s.getD 5 "" :: seen)).map (fun out => synthSnapshotURL s :: out)
    else none

/-- Row processing of `getVersions` (src/main.go:334-352): the first row
(the field names) is skipped unconditionally, the rest go through
`versionsGo` with an empty seen set. -/
def versionsRows : List (List String) → Option (List String)
  | [] => some []
  | _ :: rest => versionsGo rest []

/-- First-occurrence-per-digest selection, the reference description of what
`versionsGo` keeps: later rows whose field 5 equals the digest of an
earlier row are dropped. -/
def dedupByDigest : List (List String) → List String → List (List String)
  | [], _ => []
  | s :: rest, seen =>
    if s.getD 5 "" ∈ seen then dedupByDigest rest seen
    else s :: dedupByDigest rest (s.getD 5 "" :: seen)

/-- Modelled from the spec for comparison with the code (claim about query
construction): Go's `url.QueryEscape` on ASCII input — alphanumerics and
`-` `_` `.` `~` kept, space turned into `+`, every other character
percent-encoded with uppercase hex.  The Go source never calls this. -/
def isUnreservedQueryChar (c : Char) : Bool :=
  c.isAlpha || c.isDigit || c == '-' || c == '_' || c == '.' || c == '~'

/-- Hex digit for percent-encoding, uppercase as in Go. -/
def hexDigit (n : Nat) : Char :=
  if n < 10 then Char.ofNat (48 + n) else Char.ofNat (55 + n)

/-- Modelled from the spec: `url.QueryEscape` applied characterwise (ASCII). -/
def queryEscape (s : String) : String :=
  s.toList.foldl (fun acc c =>
    if isUnreservedQueryChar c then acc.push c
    else if c == ' ' then acc.push '+'
    else ((acc.push '%').push (hexDigit (c.toNat / 16))).push (hexDigit (c.toNat % 16))) ""

/-- Modelled from the spec ("prefixing a wildcard marker to the target
before URL-encoding it into the query string"): the wayback query the spec
describes, with the wildcard-prefixed target URL-encoded. -/
def claimedWaybackQueryURL (domain : String) (noSubs : Bool) : String :=
  let subsWildcard := if noSubs then "" else "*."
  "http://web.archive.org/cdx/search/cdx?url=" ++ queryEscape (subsWildcard ++ domain)
    ++ "/*&output=json&collapse=urlkey"
/-! Helper lemmas. -/

theorem outputLoop_fst (dates : Bool) (l : List wurl) (seen : List String) :
    (outputLoop dates l seen).1 = (dedupRecords l seen).map (fun w => (emitRecord dates w).1) := by
  induction l generalizing seen with
  | nil => rfl
  | cons w rest ih =>
    by_cases h : w.url ∈ seen <;> simp [outputLoop, dedupRecords, h, ih]

theorem dedupRecords_filter (u : String) (l : List wurl) (seen : List String) :
    (dedupRecords l seen).filter (fun w => w.url == u) =
      if u ∈ seen then [] else (l.find? (fun w => w.url == u)).toList := by
  induction l generalizing seen with
  | nil => simp [dedupRecords]
  | cons w rest ih =>
    simp only [dedupRecords]
    by_cases hw : w.url ∈ seen
    · rw [if_pos hw, ih]
      by_cases hu : u ∈ seen
      · simp [hu]
      · have hne : (w.url == u) = false := by
          refine beq_eq_false_iff_ne.mpr ?_
          intro he
          exact hu (he ▸ hw)
        simp [hu, List.find?_cons, hne]
    · rw [if_neg hw]
      by_cases heq : w.url = u
      · subst heq
        have hu : w.url ∉ seen := hw
        rw [List.filter_cons_of_pos (by simp), ih]
        simp [hu, List.find?_cons, List.mem_cons]
      · have hne : (w.url == u) = false := beq_eq_false_iff_ne.mpr heq
        have hne2 : ¬ u = w.url := fun h => heq h.symm
        rw [List.filter_cons_of_neg (by simp [hne]), ih]
        by_cases hu : u ∈ seen
        · simp [hu, hne2]
        · simp [hu, List.find?_cons, hne, hne2]

theorem count_dedup (u : String) (l : List wurl) (seen : List String) :
    ((dedupRecords l seen).map (fun w => w.url)).count u =
      if u ∈ seen then 0 else if u ∈ l.map (fun w => w.url) then 1 else 0 := by
  induction l generalizing seen with
  | nil => simp [dedupRecords]
  | cons w rest ih =>
    simp only [dedupRecords]
    by_cases hw : w.url ∈ seen
    · rw [if_pos hw, ih]
      by_cases hu : u ∈ seen
      · simp [hu]
      · have hne : ¬ u = w.url := fun h => hu (h ▸ hw)
        simp [hu, hne]
    · rw [if_neg hw]
      simp only [List.map_cons, List.count_cons]
      rw [ih]
      by_cases heq : u = w.url
      · subst heq
        simp [hw, List.mem_cons]
      · have hne : (w.url == u) = false := beq_eq_false_iff_ne.mpr (fun h => heq h.symm)
        simp [heq, hne, List.mem_cons]

theorem waybackRowsGo_eq (rows : List (List String)) (h : ∀ r ∈ rows, 3 ≤ r.length) :
    waybackRowsGo rows = some (rows.map (fun r => { date := r.getD 1 "", url := r.getD 2 "" })) := by
  induction rows with
  | nil => rfl
  | cons r rest ih =>
    have hr : 2 < r.length := h r (List.mem_cons_self r rest)
    have hrest : ∀ x ∈ rest, 3 ≤ x.length := fun x hx => h x (List.mem_cons_of_mem r hx)
    simp [waybackRowsGo, hr, ih hrest]

theorem waybackRowsGo_none (rows : List (List String)) (row : List String)
    (hmem : row ∈ rows) (hshort : row.length < 3) :
    waybackRowsGo rows = none := by
  induction rows with
  | nil => cases hmem
  | cons r rest ih =>
    rcases List.mem_cons.mp hmem with heq | hmem2
    · subst heq
      have : ¬ 2 < row.length := by omega
      simp [waybackRowsGo, this]
    · by_cases hr : 2 < r.length
      · simp [waybackRowsGo, hr, ih hmem2]
      · simp [waybackRowsGo, hr]

theorem versionsGo_eq (rows : List (List String)) (seen : List String)
    (h : ∀ r ∈ rows, 6 ≤ r.length) :
    versionsGo rows seen = some ((dedupByDigest rows seen).map synthSnapshotURL) := by
  induction rows generalizing seen with
  | nil => rfl
  | cons s rest ih =>
    have hs : 5 < s.length := h s (List.mem_cons_self s rest)
    have hrest : ∀ x ∈ rest, 6 ≤ x.length := fun x hx => h x (List.mem_cons_of_mem s hx)
    by_cases hdig : s.getD 5 "" ∈ seen <;>
      [rw [List.getD_eq_getElem s "" hs] at hdig;
       rw [List.getD_eq_getElem s "" hs] at hdig] <;>
      simp [versionsGo, dedupByDigest, hs, hdig, ih _ hrest, List.getD_eq_getElem s "" hs]

theorem versionsGo_none (rows : List (List String)) (row : List String)
    (hmem : row ∈ rows) (hshort : row.length < 6) (seen : List String) :
    versionsGo rows seen = none := by
  induction rows generalizing seen with
  | nil => cases hmem
  | cons s rest ih =>
    rcases List.mem_cons.mp hmem with heq | hmem2
    · subst heq
      have : ¬ 5 < row.length := by omega
      simp [versionsGo, this]
    · by_cases hs : 5 < s.length
      · by_cases hdig : s.getD 5 "" ∈ seen <;>
          [rw [List.getD_eq_getElem s "" hs] at hdig;
           rw [List.getD_eq_getElem s "" hs] at hdig] <;>
          simp [versionsGo, hs, hdig, ih hmem2]
      · simp [versionsGo, hs]

/-! Claim theorems. -/

/-- C1 (amended): on a transport-level error (failed request or body read)
every adapter returns an empty record sequence and a non-nil error, and the
dispatcher goroutine emits nothing for a source whose fetch errored; but a
non-decodable response body is not surfaced as an error: `getWaybackURLs`
and `getVirusTotalURLs` assign the JSON decode error to `err` without ever
checking it and return an empty sequence with a nil error. -/
theorem claim_adapter_error_contract (e de : GoErr) (key domain : String)
    (ph : String → Option String) (noSubs : Bool) (rs : List wurl)
    (hkey : key ≠ "") :
    getWaybackURLsResult (Except.error e) = some ([], some e) ∧
    getCommonCrawlURLsResult (Except.error e) = ([], some e) ∧
    (getVirusTotalURLs key domain (fun _ => Except.error e)).1 = ([], some e) ∧
    getWaybackURLsResult (Except.ok (Except.error de)) = some ([], none) ∧
    (getVirusTotalURLs key domain (fun _ => Except.ok (Except.error de))).1 = ([], none) ∧
    adapterEmit ph noSubs domain (rs, some e) = [] := by
  refine ⟨rfl, rfl, ?_, rfl, ?_, rfl⟩ <;> simp [getVirusTotalURLs, hkey]

/-- C1 counterexample: a response body that `json.Unmarshal` rejects — a
decode that the claim calls mandatory — makes `getWaybackURLs` (and
`getVirusTotalURLs` with a key set) return a NIL error alongside the empty
sequence, because the decode error is assigned and never checked
(src/main.go:198, 291); the claim demands a non-nil error there. -/
theorem claim_adapter_error_contract_counterexample :
    getWaybackURLsResult (Except.ok (Except.error "invalid character looking for beginning of value")) =
      some ([], none) ∧
    (getVirusTotalURLs "somekey" "example.com"
        (fun _ => Except.ok (Except.error "invalid character looking for beginning of value"))).1 =
      ([], none) ∧
    (getWaybackURLsResult (Except.ok (Except.error "invalid character looking for beginning of value"))).map
        (fun p => p.2.isSome) ≠ some true := by
  exact ⟨rfl, by decide, by decide⟩

/-- C1 witness: the amended theorem applied at a concrete transport error. -/
theorem claim_adapter_error_contract_witness :
    getWaybackURLsResult (Except.error "connection refused") = some ([], some "connection refused") ∧
    (getVirusTotalURLs "k" "example.com" (fun _ => Except.error "connection refused")).1 =
      ([], some "connection refused") :=
  ⟨(claim_adapter_error_contract "connection refused" "x" "k" "example.com"
      (fun _ => none) false [] (by decide)).1,
   (claim_adapter_error_contract "connection refused" "x" "k" "example.com"
      (fun _ => none) false [] (by decide)).2.2.1⟩

/-- C2: the consumer loop emits exactly the deduplicated records in stream
order, and for every URL the surviving record is the first record of the
stream carrying that URL (with its timestamp; later records with the same
URL are dropped even if their timestamps differ). -/
theorem claim_dedup_first_wins (dates : Bool) (l : List wurl) (u : String) :
    (outputLoop dates l []).1 = (dedupRecords l []).map (fun w => (emitRecord dates w).1) ∧
    (dedupRecords l []).filter (fun w => w.url == u) = (l.find? (fun w => w.url == u)).toList := by
  refine ⟨outputLoop_fst dates l [], ?_⟩
  simpa using dedupRecords_filter u l []

/-- C3: with `noSubs` set, a record whose parsed host differs from the
target (lowercased) is dropped by the dispatcher; one whose host matches
case-insensitively is kept; one whose URL fails to parse is kept; with
`noSubs` unset the filter passes every record through. -/
theorem claim_subdomain_filter (ph : String → Option String) (domain : String)
    (r : wurl) (rs : List wurl) :
    (∀ h, ph r.url = some h → toLowerAscii h ≠ toLowerAscii domain →
        emitRecords ph true domain (r :: rs) = emitRecords ph true domain rs) ∧
    (∀ h, ph r.url = some h → toLowerAscii h = toLowerAscii domain →
        emitRecords ph true domain (r :: rs) = r :: emitRecords ph true domain rs) ∧
    (ph r.url = none →
        emitRecords ph true domain (r :: rs) = r :: emitRecords ph true domain rs) ∧
    emitRecords ph false domain rs = rs := by
  refine ⟨?_, ?_, ?_, ?_⟩
  · intro h hph hne
    have hsub : isSubdomain ph r.url domain = true := by
      simp [isSubdomain, hph, bne_iff_ne, hne]
    simp [emitRecords, List.filter_cons, hsub]
  · intro h hph he
    have hsub : isSubdomain ph r.url domain = false := by
      simp [isSubdomain, hph, he]
    simp [emitRecords, List.filter_cons, hsub]
  · intro hph
    simp [emitRecords, List.filter_cons, isSubdomain, hph]
  · simp [emitRecords]

/-- C3 witness: the theorem applied with a concrete host extractor — a
subdomain record is dropped. -/
theorem claim_subdomain_filter_witness :
    emitRecords (fun s => if s = "http://sub.example.com/x" then some "sub.example.com" else none)
      true "example.com" [{ date := "t", url := "http://sub.example.com/x" }] = [] :=
  ((claim_subdomain_filter
      (fun s => if s = "http://sub.example.com/x" then some "sub.example.com" else none)
      "example.com" { date := "t", url := "http://sub.example.com/x" } []).1
    "sub.example.com" (by decide) (by decide)).trans rfl

/-- C4: with the credential absent or empty (`os.Getenv` yields the empty
string in both cases) the virustotal adapter returns no records and a nil
error and requests nothing from the network, whatever the network would
have answered. -/
theorem claim_virustotal_disabled (domain : String)
    (net : String → Except GoErr (Except GoErr (List String))) :
    getVirusTotalURLs "" domain net = (([], none), []) := by
  simp [getVirusTotalURLs]

/-- C5: the first row of the decoded wayback response is discarded without
any validation (the result does not depend on it), and when every remaining
row has at least 3 fields each row yields exactly one record, timestamp from
position 1 and URL from position 2, in response order. -/
theorem claim_wayback_header_drop (hdr : List String) (rows : List (List String)) :
    ((∀ r ∈ rows, 3 ≤ r.length) →
        waybackRows (hdr :: rows) =
          some (rows.map (fun r => { date := r.getD 1 "", url := r.getD 2 "" }))) ∧
    (∀ hdr2, waybackRows (hdr :: rows) = waybackRows (hdr2 :: rows)) :=
  ⟨fun h => waybackRowsGo_eq rows h, fun _ => rfl⟩

/-- C5 witness: the theorem applied to a two-row response — the header row
never reaches the output. -/
theorem claim_wayback_header_drop_witness :
    waybackRows [["original", "timestamp", "url"],
      ["com,example)/a", "20200101000000", "http://example.com/a"]] =
      some [{ date := "20200101000000", url := "http://example.com/a" }] :=
  ((claim_wayback_header_drop ["original", "timestamp", "url"]
      [["com,example)/a", "20200101000000", "http://example.com/a"]]).1 (by decide)).trans
    (by decide)

/-- C6: in dated mode, the record with timestamp 20200101000000 and URL
http://x.test/ produces exactly the line `2020-01-01T00:00:00Z http://x.test/`;
a parseable timestamp is rendered RFC3339 before the URL with no diagnostic;
an unparseable timestamp still produces a line, with the zero date
0001-01-01T00:00:00Z, plus a warning on the diagnostic stream only. -/
theorem claim_dated_output (w : wurl) :
    emitRecord true { date := "20200101000000", url := "http://x.test/" } =
      ("2020-01-01T00:00:00Z http://x.test/", []) ∧
    formatRFC3339 zeroTime = "0001-01-01T00:00:00Z" ∧
    (∀ t, parseArchiveTimestamp w.date = some t →
        emitRecord true w = (formatRFC3339 t ++ " " ++ w.url, [])) ∧
    (parseArchiveTimestamp w.date = none →
        emitRecord true w = (formatRFC3339 zeroTime ++ " " ++ w.url, [warnMsg w.date w.url])) := by
  refine ⟨by decide, by decide, ?_, ?_⟩
  · intro t ht
    simp [emitRecord, ht]
  · intro ht
    simp [emitRecord, ht]

/-- C6 witness: the theorem applied to a record whose date does not parse —
the line is still emitted, with the zero date, and the warning is produced. -/
theorem claim_dated_output_witness :
    emitRecord true { date := "not-a-date", url := "http://x.test/" } =
      ("0001-01-01T00:00:00Z http://x.test/",
        ["failed to parse date [not-a-date] for URL [http://x.test/]"]) :=
  ((claim_dated_output { date := "not-a-date", url := "http://x.test/" }).2.2.2
    (by decide)).trans (by decide)

/-- C7: `getVersions` drops the header row (independently of its contents),
keeps only the first row per distinct digest at column 5, synthesizes
`https://web.archive.org/web/<ts>if_/<url>` for each kept row in response
order, and a response of two non-header rows sharing one digest yields
exactly one snapshot URL. -/
theorem claim_versions_dedup (hdr : List String) (rows : List (List String))
    (r1 r2 : List String) :
    ((∀ r ∈ rows, 6 ≤ r.length) →
        versionsRows (hdr :: rows) = some ((dedupByDigest rows []).map synthSnapshotURL)) ∧
    (∀ hdr2, versionsRows (hdr :: rows) = versionsRows (hdr2 :: rows)) ∧
    (6 ≤ r1.length → 6 ≤ r2.length → r1.getD 5 "" = r2.getD 5 "" →
        versionsRows [hdr, r1, r2] = some [synthSnapshotURL r1]) := by
  refine ⟨fun h => versionsGo_eq rows [] h, fun _ => rfl, ?_⟩
  intro h1 h2 hdig
  have hall : ∀ r ∈ [r1, r2], 6 ≤ r.length := by
    intro r hr
    simp only [List.mem_cons, List.not_mem_nil, or_false] at hr
    rcases hr with rfl | rfl
    · exact h1
    · exact h2
  have heq := versionsGo_eq [r1, r2] [] hall
  rw [show versionsRows [hdr, r1, r2] = versionsGo [r1, r2] [] from rfl, heq]
  have hdig2 : r1[5]?.getD "" = r2[5]?.getD "" := by
    simpa [List.getD_eq_getElem?_getD] using hdig
  simp [dedupByDigest, hdig2]

/-- C7 witness: the theorem applied to a concrete two-row response sharing
one digest. -/
theorem claim_versions_dedup_witness :
    versionsRows [["urlkey", "timestamp", "original", "mimetype", "statuscode", "digest", "length"],
      ["k", "20200101000000", "http://example.com/", "text/html", "200", "DIG", "100"],
      ["k", "20210101000000", "http://example.com/?x", "text/html", "200", "DIG", "99"]] =
      some ["https://web.archive.org/web/20200101000000if_/http://example.com/"] :=
  ((claim_versions_dedup
      ["urlkey", "timestamp", "original", "mimetype", "statuscode", "digest", "length"] []
      ["k", "20200101000000", "http://example.com/", "text/html", "200", "DIG", "100"]
      ["k", "20210101000000", "http://example.com/?x", "text/html", "200", "DIG", "99"]).2.2
    (by decide) (by decide) (by decide)).trans (by decide)

/-- C8 (amended): when `noSubs` is unset the wayback and commoncrawl query
URLs carry the wildcard marker `*.` immediately before the target, and when
it is set the target appears without the marker; in both cases the target is
interpolated verbatim by `fmt.Sprintf` — it is never URL-encoded. -/
theorem claim_query_wildcard (domain : String) :
    getWaybackQueryURL domain false =
      "http://web.archive.org/cdx/search/cdx?url=" ++ "*." ++ domain
        ++ "/*&output=json&collapse=urlkey" ∧
    getWaybackQueryURL domain true =
      "http://web.archive.org/cdx/search/cdx?url=" ++ domain
        ++ "/*&output=json&collapse=urlkey" ∧
    getCommonCrawlQueryURL domain false =
      "http://index.commoncrawl.org/CC-MAIN-2018-22-index?url=" ++ "*." ++ domain
        ++ "/*&output=json" ∧
    getCommonCrawlQueryURL domain true =
      "http://index.commoncrawl.org/CC-MAIN-2018-22-index?url=" ++ domain
        ++ "/*&output=json" := by
  refine ⟨rfl, ?_, rfl, ?_⟩ <;> simp [getWaybackQueryURL, getCommonCrawlQueryURL]

/-- C8 counterexample: the query the claim describes — the wildcard-prefixed
target URL-encoded into the query string — differs from the query the code
builds, both for a target with a space and for a plain domain (URL-encoding
would also escape the `*` of the wildcard itself). -/
theorem claim_query_wildcard_counterexample :
    getWaybackQueryURL "a b" false ≠ claimedWaybackQueryURL "a b" false ∧
    getWaybackQueryURL "example.com" false ≠ claimedWaybackQueryURL "example.com" false := by
  exact ⟨by decide, by decide⟩

/-- C9: the `seen` set is allocated afresh inside the per-target loop, so
across a whole run the number of lines printed for a URL equals the number
of targets whose merged stream contains that URL — a URL emitted for one
target is emitted again for every later target that yields it. -/
theorem claim_dedup_per_target (streams : List (List wurl)) (u : String) :
    (mainLoop false streams).1.count u =
      streams.countP (fun s => decide (u ∈ s.map (fun w => w.url))) := by
  induction streams with
  | nil => rfl
  | cons s rest ih =>
    have hf : (fun w => (emitRecord false w).1) = fun w : wurl => w.url := rfl
    simp only [mainLoop, List.countP_cons, List.count_append, outputLoop_fst, hf, ih]
    rw [count_dedup]
    by_cases hu : u ∈ s.map (fun w => w.url)
    · simp [hu, Nat.add_comm]
    · simp [hu]

/-- C10: row access in the two array-of-arrays decoders is unguarded: any
non-header wayback row with fewer than 3 fields, or versions row with fewer
than 6 fields, crashes the whole fetch (index out of range, modelled as
`none`), while under the respective length preconditions both decoders
return a result. -/
theorem claim_unguarded_indexing (hdr row : List String) (rows : List (List String)) :
    (row ∈ rows → row.length < 3 → waybackRows (hdr :: rows) = none) ∧
    ((∀ r ∈ rows, 3 ≤ r.length) → (waybackRows (hdr :: rows)).isSome = true) ∧
    (row ∈ rows → row.length < 6 → versionsRows (hdr :: rows) = none) ∧
    ((∀ r ∈ rows, 6 ≤ r.length) → (versionsRows (hdr :: rows)).isSome = true) := by
  refine ⟨fun hm hs => waybackRowsGo_none rows row hm hs, ?_,
    fun hm hs => versionsGo_none rows row hm hs [], ?_⟩
  · intro h
    rw [show waybackRows (hdr :: rows) = waybackRowsGo rows from rfl, waybackRowsGo_eq rows h]
    rfl
  · intro h
    rw [show versionsRows (hdr :: rows) = versionsGo rows [] from rfl, versionsGo_eq rows [] h]
    rfl

/-- C10 witness: the theorem applied to concrete short rows — a 2-field
wayback row and a 5-field versions row both crash the decode. -/
theorem claim_unguarded_indexing_witness :
    waybackRows [["original", "timestamp", "url"], ["com,example)/a", "20200101000000"]] = none ∧
    versionsRows [["urlkey", "timestamp", "original", "mimetype", "statuscode", "digest", "length"],
      ["k", "20200101000000", "http://example.com/", "text/html", "200"]] = none :=
  ⟨(claim_unguarded_indexing ["original", "timestamp", "url"]
      ["com,example)/a", "20200101000000"]
      [["com,example)/a", "20200101000000"]]).1 (by decide) (by decide),
   (claim_unguarded_indexing ["urlkey", "timestamp", "original", "mimetype", "statuscode", "digest", "length"]
      ["k", "20200101000000", "http://example.com/", "text/html", "200"]
      [["k", "20200101000000", "http://example.com/", "text/html", "200"]]).2.2.1
     (by decide) (by decide)⟩
